import Mathlib

/-!
Verification of the terraform-monitor-lambda drift-detection pipeline
(`src/index.ts`). The TypeScript source is shallowly embedded: strings are
`List Char`, promise chains become `Except`-valued compositions, the
filesystem and network are explicit state, and the two fixed regular
expressions of `terraformPlan` are implemented as direct matchers with the
same semantics on their (backtracking-free) patterns.
-/

namespace TerraformMonitor

/-- Strings of the embedded program are lists of characters. -/
abbrev Str := List Char

/-- JS `stdout.split('\n')`: split a string at every newline; the empty
string yields one empty line, a trailing newline yields a trailing empty
line. -/
def splitLines : Str → List Str
  | [] => [[]]
  | c :: rest =>
    if c = '\n' then [] :: splitLines rest
    else
      match splitLines rest with
      | [] => [[c]]
      | h :: t => (c :: h) :: t

/-- Match a literal token at the head of the input; on success return the
remaining input. Embeds matching a literal fragment of a JS regex. -/
def dropToken : Str → Str → Option Str
  | [], rest => some rest
  | _ :: _, [] => none
  | t :: ts, c :: cs => if c = t then dropToken ts cs else none

/-- ASCII decimal digit, JS regex `\d`. -/
def isDigitChar (c : Char) : Bool := '0' ≤ c ∧ c ≤ '9'

/-- Greedily take the maximal digit run at the head of the input,
JS regex `(\d+)` followed by a non-digit literal. -/
def takeDigits : Str → Str × Str
  | [] => ([], [])
  | c :: cs =>
    if isDigitChar c then
      match takeDigits cs with
      | (ds, rest) => (c :: ds, rest)
    else ([], c :: cs)

/-- Embeds JS `parseInt(s, 10)` on a string of decimal digits. -/
def digitsToNat (ds : Str) : Nat :=
  ds.foldl (fun a c => a * 10 + (c.toNat - 48)) 0

/-- Matcher for the JS regex
`/^Plan: (\d+) to add, (\d+) to change, (\d+) to destroy./` of
`terraformPlan`: anchored at the start of the line, three greedy digit
groups separated by literal text, and the trailing `.` requires one more
arbitrary character after " to destroy". Each literal after a digit group
starts with a non-digit, so greedy matching needs no backtracking. Returns
the three captured groups as numbers. -/
def matchPlanLine (line : Str) : Option (Nat × Nat × Nat) := do
  let r ← dropToken ('P' :: 'l' :: 'a' :: 'n' :: ':' :: ' ' :: []) line
  let (d1, r) := takeDigits r
  if d1 = [] then none else
  let r ← dropToken (' ' :: 't' :: 'o' :: ' ' :: 'a' :: 'd' :: 'd' :: ',' :: ' ' :: []) r
  let (d2, r) := takeDigits r
  if d2 = [] then none else
  let r ← dropToken (' ' :: 't' :: 'o' :: ' ' :: 'c' :: 'h' :: 'a' :: 'n' :: 'g' :: 'e' :: ',' :: ' ' :: []) r
  let (d3, r) := takeDigits r
  if d3 = [] then none else
  let r ← dropToken (' ' :: 't' :: 'o' :: ' ' :: 'd' :: 'e' :: 's' :: 't' :: 'r' :: 'o' :: 'y' :: []) r
  match r with
  | [] => none
  | _ :: _ => some (digitsToNat d1, digitsToNat d2, digitsToNat d3)

/-- The literal part of the JS regex `/ Refreshing state.../`:
" Refreshing state" followed by three arbitrary characters. -/
def refreshHere (l : Str) : Bool :=
  match dropToken (' ' :: 'R' :: 'e' :: 'f' :: 'r' :: 'e' :: 's' :: 'h' :: 'i' :: 'n' :: 'g' :: ' ' :: 's' :: 't' :: 'a' :: 't' :: 'e' :: []) l with
  | some rest => decide (3 ≤ rest.length)
  | none => false

/-- Matcher for the unanchored JS regex `/ Refreshing state.../`:
the pattern may match at any position of the line. -/
def matchRefresh : Str → Bool
  | [] => false
  | c :: cs => refreshHere (c :: cs) || matchRefresh cs

/-- Accumulator of `terraformPlan`'s line scan:
`resourceCount`, `pendingAdd`, `pendingChange`, `pendingDestroy`. -/
structure PlanCounts where
  resourceCount : Nat
  pendingAdd : Nat
  pendingChange : Nat
  pendingDestroy : Nat
deriving DecidableEq, Repr

/-- One iteration of the `forEach` body of `terraformPlan`: count a
state-refresh marker, and overwrite the pending counts whenever the
summary regex matches. -/
def scanLine (s : PlanCounts) (line : Str) : PlanCounts :=
  let s :=
    if matchRefresh line then { s with resourceCount := s.resourceCount + 1 } else s
  match matchPlanLine line with
  | some (a, b, c) => { s with pendingAdd := a, pendingChange := b, pendingDestroy := c }
  | none => s

/-- The parsing pass of `terraformPlan` over the PLAN stdout: all counters
start at 0 and every line is scanned in order. -/
def parsePlanStdout (stdout : Str) : PlanCounts :=
  (splitLines stdout).foldl scanLine ⟨0, 0, 0, 0⟩

/-- Result of `execProcess`: exit code plus captured output streams.
`execProcess` resolves with this record for any exit code; a spawn failure
rejects instead and is modelled upstream as an `Except.error`. -/
structure ExecResult where
  code : Nat
  stdout : Str
  stderr : Str
deriving DecidableEq, Repr

/-- The record built at the end of `terraformPlan`
(`terraformStatus`, `resourceCount`, `refreshTime`, pending counts). -/
structure PlanMetrics where
  terraformStatus : Nat
  resourceCount : Nat
  refreshTime : Nat
  pendingAdd : Nat
  pendingChange : Nat
  pendingDestroy : Nat
  pendingTotal : Nat
deriving DecidableEq, Repr

/-- The full `TerraformMetrics` record: `main` spreads
`scratchSpaceBytes` and `totalTime` onto the plan metrics. -/
structure TerraformMetrics where
  terraformStatus : Nat
  resourceCount : Nat
  refreshTime : Nat
  totalTime : Nat
  scratchSpaceBytes : Nat
  pendingAdd : Nat
  pendingChange : Nat
  pendingDestroy : Nat
  pendingTotal : Nat
deriving DecidableEq, Repr

/-- The message of the error thrown by `terraformPlan` on exit code 1. -/
def planFailMsg (code : Nat) : Str :=
  "Terraform plan failed (exit code ".data ++ (toString code).data ++ ")".data

/-- The message of the error thrown by `terraformInit` on non-zero exit. -/
def initFailMsg (code : Nat) : Str :=
  "Terraform init failed (exit code ".data ++ (toString code).data ++ ")".data

/-- The `.then` chain of `terraformPlan` after `execProcess` resolves:
throw only when the exit code is exactly 1, otherwise parse stdout and
build the plan metrics, recording the raw exit code as `terraformStatus`
and summing the pending counts into `pendingTotal`. -/
def terraformPlanStep (refreshTime : Nat) (res : ExecResult) : Except Str PlanMetrics :=
  if res.code = 1 then .error (planFailMsg res.code)
  else
    let c := parsePlanStdout res.stdout
    .ok { terraformStatus := res.code
          resourceCount := c.resourceCount
          refreshTime := refreshTime
          pendingAdd := c.pendingAdd
          pendingChange := c.pendingChange
          pendingDestroy := c.pendingDestroy
          pendingTotal := c.pendingAdd + c.pendingChange + c.pendingDestroy }

/-- Outcomes of the effectful steps of one run of `main`, supplied by the
environment (S3, GitHub, the filesystem, the spawned processes) and
threaded through the orchestration. `refreshTime`/`totalTime` stand for
the `Date.now()` differences. -/
structure RunSteps where
  terraformVersion : Except Str Str
  installOutcome : Except Str Unit
  repoHead : Except Str Str
  fetchOutcome : Except Str Unit
  scratchSpace : Except Str Nat
  initMarkerExists : Bool
  initSpawn : Except Str ExecResult
  planSpawn : Except Str ExecResult
  shipOutcome : Except Str Unit
  refreshTime : Nat
  totalTime : Nat

/-- Embedding of `terraformInit`: skipped when the `.terraform` marker from a prior run
exists; otherwise the init subcommand runs and any non-zero exit code is
an error. -/
def terraformInitStep (s : RunSteps) : Except Str Unit :=
  if s.initMarkerExists then .ok ()
  else do
    let r ← s.initSpawn
    if r.code ≠ 0 then .error (initFailMsg r.code) else .ok ()

/-- The whole of `terraformPlan`: spawn the plan subcommand, then triage
the exit code and parse the output. -/
def terraformPlanPhase (s : RunSteps) : Except Str PlanMetrics := do
  let res ← s.planSpawn
  terraformPlanStep s.refreshTime res

/-- The promise chain of `main` up to (and excluding) `shipMetrics`: the
three concurrent acquisition steps, then INIT, then PLAN, then the record
assembly. Any step failure short-circuits, so the value describes exactly
the record handed to the dispatcher, when one is. -/
def mainRaw (s : RunSteps) : Except Str TerraformMetrics := do
  let _version ← s.terraformVersion
  let _ ← s.installOutcome
  let _head ← s.repoHead
  let _ ← s.fetchOutcome
  let bytes ← s.scratchSpace
  let _ ← terraformInitStep s
  let pm ← terraformPlanPhase s
  .ok { terraformStatus := pm.terraformStatus
        resourceCount := pm.resourceCount
        refreshTime := pm.refreshTime
        totalTime := s.totalTime
        scratchSpaceBytes := bytes
        pendingAdd := pm.pendingAdd
        pendingChange := pm.pendingChange
        pendingDestroy := pm.pendingDestroy
        pendingTotal := pm.pendingTotal }

/-- The metrics record `shipMetrics` receives in a given run, if it is
invoked at all: `main` reaches the dispatcher only when every earlier step
succeeded. -/
def mainShipped (s : RunSteps) : Option TerraformMetrics :=
  (mainRaw s).toOption

/-- The sink-selection part of the dispatcher configuration. -/
structure SinkConfig where
  cloudwatchNamespace : Str
  influxUrl : Str

/-- The three metrics sinks of `shipMetrics`. -/
inductive Sink
  | console
  | cloudWatch
  | influxDb
deriving DecidableEq, Repr

/-- Embedding of `shipMetrics`: console always; CloudWatch and InfluxDB only when their
configuration is non-empty. -/
def shipMetrics (cfg : SinkConfig) (_metrics : TerraformMetrics) : List Sink :=
  [Sink.console]
    ++ (if cfg.cloudwatchNamespace ≠ [] then [Sink.cloudWatch] else [])
    ++ (if cfg.influxUrl ≠ [] then [Sink.influxDb] else [])

/-- The sinks actually invoked in a run: none at all when any step before
the dispatcher failed. -/
def mainDispatched (cfg : SinkConfig) (s : RunSteps) : List Sink :=
  match mainRaw s with
  | .ok m => shipMetrics cfg m
  | .error _ => []

/-- The whole of `main` including the dispatch and the final
`.catch(err => log('ERROR', err)).then(() => null)`: the catch converts
every failure into a logged message and a normal resolution. -/
def mainResolved (s : RunSteps) : Except Str Unit :=
  match (do let m ← mainRaw s; let _ ← s.shipOutcome; pure m : Except Str TerraformMetrics) with
  | .ok _ => .ok ()
  | .error _ => .ok ()

/-- The argument `lambda.handler` passes to its completion callback:
`main().then(callback, callback)` hands the callback the resolution value
(`null`) or the rejection reason. -/
def handlerCallbackArg (s : RunSteps) : Option Str :=
  match mainResolved s with
  | .ok _ => none
  | .error e => some e

/-- The filesystem/network state seen by `installTerraform`: which paths
exist, and how many archive downloads have been performed. -/
structure Disk where
  paths : List Str
  downloads : Nat
deriving DecidableEq, Repr

/-- Embedding of `installTerraform`: compute the deterministic binary path from the
version; if it already exists return it unchanged (cache hit), otherwise
download and extract the archive (one network access, after which the
binary path exists) and return the same path. -/
def installTerraform (scratch version : Str) (d : Disk) : Str × Disk :=
  let file := "terraform_".data ++ version ++ "_linux_amd64".data
  let out := scratch ++ "/".data ++ file
  let bin := out ++ "/terraform".data
  if bin ∈ d.paths then (bin, d)
  else (bin, { paths := bin :: d.paths, downloads := d.downloads + 1 })

/-- A JS `string | number | boolean` value passed to `influxEscape`. -/
inductive FieldValue
  | str (s : Str)
  | num (n : Int)
  | bool (b : Bool)
deriving DecidableEq, Repr

/-- JS string coercion `input + ''` of a field value. -/
def FieldValue.coerce : FieldValue → Str
  | .str s => s
  | .num n => (toString n).data
  | .bool b => if b then "true".data else "false".data

/-- The escaping context argument of `influxEscape`. -/
inductive EscapeContext
  | MEASUREMENT
  | TAG_KEY
  | TAG_VALUE
  | FIELD_KEY
  | FIELD_VALUE
deriving DecidableEq, Repr

/-- JS `.replace(/t/g, '\\t')` for a single character `t`: every
occurrence of `t` becomes a backslash followed by `t`. -/
def replaceChar (t : Char) : Str → Str
  | [] => []
  | c :: cs => if c = t then '\\' :: c :: replaceChar t cs else c :: replaceChar t cs

/-- JS `.replace(/"/g, '\\"')`: escape every double quote. -/
def escQuotes : Str → Str := replaceChar '"'

/-- Embedding of `influxEscape`: measurement names escape comma and space; tag keys,
tag values and field keys escape comma, equals and space; string field
values get internal quotes escaped and are wrapped in double quotes;
number and boolean field values are coerced to text unquoted. -/
def influxEscape (input : FieldValue) (context : EscapeContext) : Str :=
  match context with
  | .MEASUREMENT => replaceChar ' ' (replaceChar ',' input.coerce)
  | .TAG_KEY | .TAG_VALUE | .FIELD_KEY =>
      replaceChar ' ' (replaceChar '=' (replaceChar ',' input.coerce))
  | .FIELD_VALUE =>
      match input with
      | .num n => (toString n).data
      | .bool b => if b then "true".data else "false".data
      | .str s => '"' :: escQuotes s ++ ['"']

/-- JS `Array.join(',')`. -/
def joinComma : List Str → Str
  | [] => []
  | [x] => x
  | x :: y :: rest => x ++ ',' :: joinComma (y :: rest)

/-- The `tagString` of `influxLine`: `key=value` pairs, escaped by
context, joined with commas. -/
def influxTagString (tags : List (Str × Str)) : Str :=
  joinComma (tags.map fun kv =>
    influxEscape (.str kv.1) .TAG_KEY ++ '=' :: influxEscape (.str kv.2) .TAG_VALUE)

/-- The `fieldString` of `influxLine`: `key=value` pairs, escaped by
context, joined with commas. -/
def influxFieldString (fields : List (Str × FieldValue)) : Str :=
  joinComma (fields.map fun kv =>
    influxEscape (.str kv.1) .FIELD_KEY ++ '=' :: influxEscape kv.2 .FIELD_VALUE)

/-- The `timeString` of `influxLine`: the JS conditional
`timestampInMs ? ` ${timestampInMs * 1e6}` : ''` is falsy both for an
absent timestamp and for the timestamp 0, and otherwise multiplies the
millisecond value by 1,000,000. -/
def influxTimeString (timestampInMs : Option Nat) : Str :=
  match timestampInMs with
  | some t => if t ≠ 0 then ' ' :: (toString (t * 1000000)).data else []
  | none => []

/-- Embedding of `influxLine`: escaped measurement, a comma-separated tag string with a
leading comma only when at least one tag is present, a space, the field
string, and the optional timestamp suffix. -/
def influxLine (measurement : Str) (tags : List (Str × Str))
    (fields : List (Str × FieldValue)) (timestampInMs : Option Nat) : Str :=
  let tagSeparator := if tags.length ≠ 0 then [','] else []
  influxEscape (.str measurement) .MEASUREMENT
    ++ tagSeparator ++ influxTagString tags
    ++ ' ' :: influxFieldString fields
    ++ influxTimeString timestampInMs

/-- Modelled from the spec: the repository contains no line-protocol
reader, so the "recovers the original value when unescaped" property is
checked against a compliant reader's unescaping rule — a backslash before
a comma, an equals sign or a space stands for that character itself. -/
def unescapeInflux : Str → Str
  | [] => []
  | [c] => [c]
  | c1 :: c2 :: rest =>
    if c1 = '\\' ∧ (c2 = ',' ∨ c2 = '=' ∨ c2 = ' ') then c2 :: unescapeInflux rest
    else c1 :: unescapeInflux (c2 :: rest)

/-- Reference form of the spec's escaping table for measurement names:
comma and space are backslash-escaped, character by character. -/
def specEscapeCommaSpace (s : Str) : Str :=
  s.foldr (fun c acc => (if c = ',' ∨ c = ' ' then ['\\', c] else [c]) ++ acc) []

/-- Reference form of the spec's escaping table for tag keys, tag values
and field keys: comma, equals and space are backslash-escaped, character
by character. -/
def specEscapeCommaEqualsSpace (s : Str) : Str :=
  s.foldr (fun c acc => (if c = ',' ∨ c = '=' ∨ c = ' ' then ['\\', c] else [c]) ++ acc) []

/-! ### Lemmas about the escaping chains -/

lemma replaceChar_cons (t c : Char) (s : Str) :
    replaceChar t (c :: s) =
      (if c = t then ['\\', c] else [c]) ++ replaceChar t s := by
  by_cases h : c = t <;> simp [replaceChar, h]

lemma measurementChain_cons (c : Char) (s : Str) :
    replaceChar ' ' (replaceChar ',' (c :: s)) =
      (if c = ',' ∨ c = ' ' then ['\\', c] else [c])
        ++ replaceChar ' ' (replaceChar ',' s) := by
  by_cases h1 : c = ','
  · subst h1
    simp [replaceChar_cons, replaceChar]
  · by_cases h3 : c = ' '
    · subst h3
      simp [replaceChar_cons, replaceChar]
    · simp [replaceChar_cons, replaceChar, h1, h3]

lemma tagChain_cons (c : Char) (s : Str) :
    replaceChar ' ' (replaceChar '=' (replaceChar ',' (c :: s))) =
      (if c = ',' ∨ c = '=' ∨ c = ' ' then ['\\', c] else [c])
        ++ replaceChar ' ' (replaceChar '=' (replaceChar ',' s)) := by
  by_cases h1 : c = ','
  · subst h1
    simp [replaceChar_cons, replaceChar]
  · by_cases h2 : c = '='
    · subst h2
      simp [replaceChar_cons, replaceChar]
    · by_cases h3 : c = ' '
      · subst h3
        simp [replaceChar_cons, replaceChar]
      · simp [replaceChar_cons, replaceChar, h1, h2, h3]

lemma measurementChain_eq_spec (s : Str) :
    replaceChar ' ' (replaceChar ',' s) = specEscapeCommaSpace s := by
  induction s with
  | nil => rfl
  | cons c s ih => rw [measurementChain_cons, ih]; rfl

lemma tagChain_eq_spec (s : Str) :
    replaceChar ' ' (replaceChar '=' (replaceChar ',' s)) = specEscapeCommaEqualsSpace s := by
  induction s with
  | nil => rfl
  | cons c s ih => rw [tagChain_cons, ih]; rfl

/-- The first character the tag-escaping chain emits is never one of the
three characters it escapes (it is either a backslash or an unescaped
ordinary character). -/
lemma tagChain_head_not_special (s : Str) (d : Char) (rest : Str)
    (h : replaceChar ' ' (replaceChar '=' (replaceChar ',' s)) = d :: rest) :
    ¬(d = ',' ∨ d = '=' ∨ d = ' ') := by
  cases s with
  | nil => simp [replaceChar] at h
  | cons c s =>
    rw [tagChain_cons] at h
    by_cases hc : c = ',' ∨ c = '=' ∨ c = ' '
    · rw [if_pos hc] at h
      cases h
      decide
    · rw [if_neg hc] at h
      cases h
      exact hc

lemma unescapeInflux_cons_ord (c : Char) (l : Str) (h : ¬c = '\\') :
    unescapeInflux (c :: l) = c :: unescapeInflux l := by
  cases l with
  | nil => rfl
  | cons c2 rest =>
    simp only [unescapeInflux]
    rw [if_neg (fun hand => h hand.1)]

lemma unescapeInflux_cons_bs (l : Str)
    (h : ∀ d rest, l = d :: rest → ¬(d = ',' ∨ d = '=' ∨ d = ' ')) :
    unescapeInflux ('\\' :: l) = '\\' :: unescapeInflux l := by
  cases l with
  | nil => rfl
  | cons c2 rest =>
    simp only [unescapeInflux]
    rw [if_neg (fun hand => h c2 rest rfl hand.2)]

lemma unescapeInflux_cons_special (c : Char) (l : Str)
    (h : c = ',' ∨ c = '=' ∨ c = ' ') :
    unescapeInflux ('\\' :: c :: l) = c :: unescapeInflux l := by
  rcases h with h | h | h <;> subst h <;> simp [unescapeInflux]

/-- Escape/unescape round trip for the tag-escaping chain, on every
string. -/
lemma unescape_tagChain (s : Str) :
    unescapeInflux (replaceChar ' ' (replaceChar '=' (replaceChar ',' s))) = s := by
  induction s with
  | nil => rfl
  | cons c s ih =>
    rw [tagChain_cons]
    by_cases hc : c = ',' ∨ c = '=' ∨ c = ' '
    · rw [if_pos hc]
      show unescapeInflux ('\\' :: c :: replaceChar ' ' (replaceChar '=' (replaceChar ',' s))) = c :: s
      rw [unescapeInflux_cons_special c _ hc, ih]
    · rw [if_neg hc]
      by_cases hbs : c = '\\'
      · subst hbs
        show unescapeInflux ('\\' :: replaceChar ' ' (replaceChar '=' (replaceChar ',' s))) = '\\' :: s
        rw [unescapeInflux_cons_bs _ (fun d rest hh => tagChain_head_not_special s d rest hh), ih]
      · show unescapeInflux (c :: replaceChar ' ' (replaceChar '=' (replaceChar ',' s))) = c :: s
        rw [unescapeInflux_cons_ord c _ hbs, ih]

/-- C5: the line-protocol encoder escapes by context — measurement names
backslash-escape comma and space; tag keys, tag values and field keys
backslash-escape comma, equals and space; string field values are wrapped
in double quotes with internal quotes escaped; number and boolean field
values are emitted unquoted; and a tag value containing a comma, an
equals sign and a space is recovered by unescaping its encoded form. -/
theorem c5_escape_by_context :
    (∀ s : Str, influxEscape (.str s) .MEASUREMENT = specEscapeCommaSpace s)
    ∧ (∀ s : Str, influxEscape (.str s) .TAG_KEY = specEscapeCommaEqualsSpace s
        ∧ influxEscape (.str s) .TAG_VALUE = specEscapeCommaEqualsSpace s
        ∧ influxEscape (.str s) .FIELD_KEY = specEscapeCommaEqualsSpace s)
    ∧ (∀ s : Str, influxEscape (.str s) .FIELD_VALUE = '"' :: escQuotes s ++ ['"'])
    ∧ (∀ n : Int, influxEscape (.num n) .FIELD_VALUE = (toString n).data)
    ∧ (∀ b : Bool, influxEscape (.bool b) .FIELD_VALUE
        = (if b then "true".data else "false".data))
    ∧ (∀ v : Str, ',' ∈ v → '=' ∈ v → ' ' ∈ v →
        unescapeInflux (influxEscape (.str v) .TAG_VALUE) = v) :=
  ⟨fun s => measurementChain_eq_spec s,
   fun s => ⟨tagChain_eq_spec s, tagChain_eq_spec s, tagChain_eq_spec s⟩,
   fun _ => rfl,
   fun _ => rfl,
   fun _ => rfl,
   fun v _ _ _ => unescape_tagChain v⟩

/-- Witness for C5 at the tag value "a,b=c d". -/
theorem c5_escape_by_context_witness :
    unescapeInflux (influxEscape (.str "a,b=c d".data) .TAG_VALUE) = "a,b=c d".data :=
  c5_escape_by_context.2.2.2.2.2 "a,b=c d".data (by decide) (by decide) (by decide)

/-- C10: with an empty tag map the encoded line is the escaped measurement
name, one space, then the field string — the separator comma is emitted
only when at least one tag is present. -/
theorem c10_no_tag_separator (m : Str) (fields : List (Str × FieldValue))
    (_hf : fields ≠ []) :
    influxLine m [] fields none =
      influxEscape (.str m) .MEASUREMENT ++ ' ' :: influxFieldString fields := by
  simp [influxLine, influxTimeString, influxTagString, joinComma]

/-- Witness for C10 on a one-field map. -/
theorem c10_no_tag_separator_witness :
    influxLine "m".data [] [("f".data, FieldValue.num 1)] none =
      influxEscape (.str "m".data) .MEASUREMENT
        ++ ' ' :: influxFieldString [("f".data, FieldValue.num 1)] :=
  c10_no_tag_separator "m".data [("f".data, FieldValue.num 1)] (by decide)

/-- C9 counterexample: at the supplied timestamp 0 the JS truthiness test
`timestampInMs ? ... : ''` omits the timestamp entirely, so the encoded
line does not end with a space followed by 0 × 1,000,000. -/
theorem c9_counterexample :
    influxLine "m".data [] [("f".data, FieldValue.num 1)] (some 0) = "m f=1".data
    ∧ (' ' :: (toString (0 * 1000000)).data).isSuffixOf
        (influxLine "m".data [] [("f".data, FieldValue.num 1)] (some 0)) = false := by
  decide

/-- C9 amended: for every call to `influxLine` with a supplied *non-zero*
timestamp t in milliseconds, the encoded line ends with a space followed
by the nanosecond value t × 1,000,000; a supplied timestamp 0 is falsy in
JS and omitted. -/
theorem c9_timestamp_nanoseconds (m : Str) (tags : List (Str × Str))
    (fields : List (Str × FieldValue)) (t : Nat) (ht : t ≠ 0) :
    influxLine m tags fields (some t) =
      (influxEscape (.str m) .MEASUREMENT
        ++ (if tags.length ≠ 0 then [','] else []) ++ influxTagString tags
        ++ ' ' :: influxFieldString fields)
      ++ ' ' :: (toString (t * 1000000)).data := by
  simp [influxLine, influxTimeString, ht, List.append_assoc]

/-- Witness for C9 at timestamp 1 ms. -/
theorem c9_timestamp_nanoseconds_witness :
    influxLine "m".data [] [("f".data, FieldValue.num 1)] (some 1) =
      (influxEscape (.str "m".data) .MEASUREMENT
        ++ (if ([] : List (Str × Str)).length ≠ 0 then [','] else [])
        ++ influxTagString []
        ++ ' ' :: influxFieldString [("f".data, FieldValue.num 1)])
      ++ ' ' :: (toString (1 * 1000000)).data :=
  c9_timestamp_nanoseconds "m".data [] [("f".data, FieldValue.num 1)] 1 (by decide)

/-! ### Lemmas about the plan-output scan -/

/-- The pending-count triple of a scan state. -/
def getPending (s : PlanCounts) : Nat × Nat × Nat :=
  (s.pendingAdd, s.pendingChange, s.pendingDestroy)

lemma scanLine_pending (s : PlanCounts) (l : Str) :
    getPending (scanLine s l) =
      (match matchPlanLine l with
       | some r => r
       | none => getPending s) := by
  cases h : matchPlanLine l with
  | none =>
    simp only [scanLine, h, getPending]
    split <;> rfl
  | some r =>
    obtain ⟨a, b, c⟩ := r
    simp only [scanLine, h, getPending]

lemma foldl_pending_nomatch (lines : List Str) (s : PlanCounts)
    (h : ∀ l ∈ lines, matchPlanLine l = none) :
    getPending (lines.foldl scanLine s) = getPending s := by
  induction lines generalizing s with
  | nil => rfl
  | cons l ls ih =>
    rw [List.foldl_cons, ih _ (fun x hx => h x (by simp [hx])), scanLine_pending,
      h l (by simp)]

lemma foldl_counts_inert (lines : List Str) (s : PlanCounts)
    (hr : ∀ l ∈ lines, matchRefresh l = false)
    (hp : ∀ l ∈ lines, matchPlanLine l = none) :
    lines.foldl scanLine s = s := by
  induction lines generalizing s with
  | nil => rfl
  | cons l ls ih =>
    rw [List.foldl_cons]
    have hstep : scanLine s l = s := by
      simp [scanLine, hr l (by simp), hp l (by simp)]
    rw [hstep]
    exact ih s (fun x hx => hr x (by simp [hx])) (fun x hx => hp x (by simp [hx]))

lemma foldl_pending_all_eq (lines : List Str) (t : Nat × Nat × Nat) :
    ∀ s : PlanCounts,
      (∀ l ∈ lines, matchPlanLine l = none ∨ matchPlanLine l = some t) →
      ((∃ l ∈ lines, matchPlanLine l ≠ none) ∨ getPending s = t) →
      getPending (lines.foldl scanLine s) = t := by
  induction lines with
  | nil =>
    intro s _ hd
    rcases hd with ⟨l, hl, _⟩ | hs
    · simp at hl
    · exact hs
  | cons l ls ih =>
    intro s hall hd
    rw [List.foldl_cons]
    apply ih (scanLine s l) (fun x hx => hall x (by simp [hx]))
    rcases hall l (by simp) with hml | hml
    · rcases hd with ⟨l', hl', hm'⟩ | hs
      · rcases List.mem_cons.mp hl' with rfl | hl'ls
        · exact absurd hml hm'
        · exact Or.inl ⟨l', hl'ls, hm'⟩
      · right
        rw [scanLine_pending, hml]
        exact hs
    · right
      rw [scanLine_pending, hml]

/-- C2: for every PLAN stdout whose summary-line matches all carry the
counts (X, Y, Z) and at least one line matches, the parser returns
pendingAdd = X, pendingChange = Y, pendingDestroy = Z, and the plan
metrics carry pendingTotal = X + Y + Z. -/
theorem c2_summary_parse (stdout : Str) (x y z : Nat)
    (hex : ∃ l ∈ splitLines stdout, matchPlanLine l = some (x, y, z))
    (hall : ∀ l ∈ splitLines stdout,
      matchPlanLine l = none ∨ matchPlanLine l = some (x, y, z)) :
    (parsePlanStdout stdout).pendingAdd = x
    ∧ (parsePlanStdout stdout).pendingChange = y
    ∧ (parsePlanStdout stdout).pendingDestroy = z
    ∧ ∀ (rt : Nat) (res : ExecResult) (m : PlanMetrics),
        res.stdout = stdout → terraformPlanStep rt res = .ok m →
          m.pendingAdd = x ∧ m.pendingChange = y ∧ m.pendingDestroy = z
            ∧ m.pendingTotal = x + y + z := by
  have hp : getPending (parsePlanStdout stdout) = (x, y, z) := by
    apply foldl_pending_all_eq _ _ _ hall
    obtain ⟨l, hl, hm⟩ := hex
    exact Or.inl ⟨l, hl, by simp [hm]⟩
  have ha : (parsePlanStdout stdout).pendingAdd = x := congrArg Prod.fst hp
  have hb : (parsePlanStdout stdout).pendingChange = y :=
    congrArg Prod.fst (congrArg Prod.snd hp)
  have hc : (parsePlanStdout stdout).pendingDestroy = z :=
    congrArg Prod.snd (congrArg Prod.snd hp)
  refine ⟨ha, hb, hc, ?_⟩
  intro rt res m hst hok
  by_cases hcode : res.code = 1
  · simp [terraformPlanStep, hcode] at hok
  · simp only [terraformPlanStep, if_neg hcode, Except.ok.injEq] at hok
    subst hok
    subst hst
    refine ⟨ha, hb, hc, ?_⟩
    show (parsePlanStdout res.stdout).pendingAdd + (parsePlanStdout res.stdout).pendingChange
        + (parsePlanStdout res.stdout).pendingDestroy = x + y + z
    rw [ha, hb, hc]

/-- Witness for C2 on a single summary line. -/
theorem c2_summary_parse_witness :
    (parsePlanStdout "Plan: 2 to add, 0 to change, 1 to destroy.".data).pendingAdd = 2 :=
  (c2_summary_parse "Plan: 2 to add, 0 to change, 1 to destroy.".data 2 0 1
    (by decide) (by decide)).1

/-- C3 counterexample: a PLAN stdout with two summary lines — the first
reading (1, 2, 3) and the second (4, 5, 6) — is parsed to the counts of
the second (last) matching line, not the first. -/
theorem c3_counterexample :
    matchPlanLine "Plan: 1 to add, 2 to change, 3 to destroy.".data = some (1, 2, 3)
    ∧ splitLines
        "Plan: 1 to add, 2 to change, 3 to destroy.\nPlan: 4 to add, 5 to change, 6 to destroy.".data
        = ["Plan: 1 to add, 2 to change, 3 to destroy.".data,
           "Plan: 4 to add, 5 to change, 6 to destroy.".data]
    ∧ getPending (parsePlanStdout
        "Plan: 1 to add, 2 to change, 3 to destroy.\nPlan: 4 to add, 5 to change, 6 to destroy.".data)
        = (4, 5, 6) := by
  decide

/-- C3 amended: with two or more lines matching the summary-sentence
pattern, the (add, change, destroy) counts are extracted from the *last*
such line — each match overwrites the previous one. -/
theorem c3_last_match_wins (stdout : Str) (pre post : List Str) (line : Str)
    (x y z : Nat)
    (hsplit : splitLines stdout = pre ++ line :: post)
    (hline : matchPlanLine line = some (x, y, z))
    (hpost : ∀ l ∈ post, matchPlanLine l = none) :
    getPending (parsePlanStdout stdout) = (x, y, z) := by
  unfold parsePlanStdout
  rw [hsplit, List.foldl_append, List.foldl_cons,
    foldl_pending_nomatch _ _ hpost, scanLine_pending, hline]

/-- Witness for C3 on the two-summary-line stdout. -/
theorem c3_last_match_wins_witness :
    getPending (parsePlanStdout
      "Plan: 1 to add, 2 to change, 3 to destroy.\nPlan: 4 to add, 5 to change, 6 to destroy.".data)
      = (4, 5, 6) :=
  c3_last_match_wins _
    ["Plan: 1 to add, 2 to change, 3 to destroy.".data] []
    "Plan: 4 to add, 5 to change, 6 to destroy.".data 4 5 6
    (by decide) (by decide) (by decide)

/-- A run whose acquisition steps all succeeded and whose INIT phase is
skipped by the marker reduces to the PLAN phase followed by the record
assembly. -/
lemma mainRaw_allok (ver hd : Str) (bytes rt tt : Nat) (ispawn : Except Str ExecResult)
    (res : ExecResult) (shipO : Except Str Unit) :
    mainRaw ⟨.ok ver, .ok (), .ok hd, .ok (), .ok bytes, true, ispawn, .ok res, shipO, rt, tt⟩
      = Except.bind (terraformPlanStep rt res) (fun pm => .ok
          ⟨pm.terraformStatus, pm.resourceCount, pm.refreshTime, tt, bytes,
           pm.pendingAdd, pm.pendingChange, pm.pendingDestroy, pm.pendingTotal⟩) := rfl

/-- C7: a PLAN stdout with no state-refresh marker line and no
summary-pattern line parses to zero resource and pending counts, the plan
step succeeds (exit 0 is not an error), and the run continues to build
and dispatch the metrics record. -/
theorem c7_empty_output_not_error (stdout : Str)
    (hr : ∀ l ∈ splitLines stdout, matchRefresh l = false)
    (hp : ∀ l ∈ splitLines stdout, matchPlanLine l = none) :
    parsePlanStdout stdout = ⟨0, 0, 0, 0⟩
    ∧ (∀ (rt : Nat) (stderr : Str),
        terraformPlanStep rt ⟨0, stdout, stderr⟩ = .ok ⟨0, 0, rt, 0, 0, 0, 0⟩)
    ∧ (∀ (ver hd : Str) (bytes rt tt : Nat) (stderr : Str) (shipO : Except Str Unit),
        mainShipped ⟨.ok ver, .ok (), .ok hd, .ok (), .ok bytes, true,
            .ok ⟨0, [], []⟩, .ok ⟨0, stdout, stderr⟩, shipO, rt, tt⟩
          = some ⟨0, 0, rt, tt, bytes, 0, 0, 0, 0⟩)
    ∧ (∀ (ver hd : Str) (bytes rt tt : Nat) (stderr : Str) (shipO : Except Str Unit)
        (cfg : SinkConfig),
        Sink.console ∈ mainDispatched cfg ⟨.ok ver, .ok (), .ok hd, .ok (), .ok bytes,
          true, .ok ⟨0, [], []⟩, .ok ⟨0, stdout, stderr⟩, shipO, rt, tt⟩) := by
  have hparse : parsePlanStdout stdout = ⟨0, 0, 0, 0⟩ :=
    foldl_counts_inert _ _ hr hp
  have hstep : ∀ (rt : Nat) (stderr : Str),
      terraformPlanStep rt ⟨0, stdout, stderr⟩ = .ok ⟨0, 0, rt, 0, 0, 0, 0⟩ := by
    intro rt stderr
    simp [terraformPlanStep, hparse]
  refine ⟨hparse, hstep, ?_, ?_⟩
  · intro ver hd bytes rt tt stderr shipO
    unfold mainShipped
    rw [mainRaw_allok, hstep rt stderr]
    rfl
  · intro ver hd bytes rt tt stderr shipO cfg
    unfold mainDispatched
    rw [mainRaw_allok, hstep rt stderr]
    simp [Except.bind, shipMetrics]

/-- Witness for C7 on a stdout with two unremarkable lines. -/
theorem c7_empty_output_not_error_witness :
    parsePlanStdout "Initializing...\nNo changes. Infrastructure is up-to-date.".data
      = ⟨0, 0, 0, 0⟩ :=
  (c7_empty_output_not_error
    "Initializing...\nNo changes. Infrastructure is up-to-date.".data
    (by decide) (by decide)).1

/-! ### Lemmas about the orchestration chain -/

/-- When a run reaches the record assembly, every step before it
succeeded: the promise chain short-circuits on the first failure. -/
lemma mainRaw_ok_parts {s : RunSteps} {m : TerraformMetrics}
    (h : mainRaw s = .ok m) :
    (∃ v, s.terraformVersion = .ok v) ∧ s.installOutcome = .ok ()
    ∧ (∃ hd, s.repoHead = .ok hd) ∧ s.fetchOutcome = .ok ()
    ∧ (∃ b, s.scratchSpace = .ok b) ∧ terraformInitStep s = .ok ()
    ∧ ∃ pm, terraformPlanPhase s = .ok pm := by
  unfold mainRaw at h
  rcases h1 : s.terraformVersion with e | v <;> rw [h1] at h
  · exact Except.noConfusion h
  rcases h2 : s.installOutcome with e | u <;> rw [h2] at h
  · exact Except.noConfusion h
  rcases h3 : s.repoHead with e | hd <;> rw [h3] at h
  · exact Except.noConfusion h
  rcases h4 : s.fetchOutcome with e | u' <;> rw [h4] at h
  · exact Except.noConfusion h
  rcases h5 : s.scratchSpace with e | b <;> rw [h5] at h
  · exact Except.noConfusion h
  rcases h6 : terraformInitStep s with e | u'' <;> rw [h6] at h
  · exact Except.noConfusion h
  rcases h7 : terraformPlanPhase s with e | pm <;> rw [h7] at h
  · exact Except.noConfusion h
  cases u
  cases u'
  cases u''
  exact ⟨⟨v, rfl⟩, rfl, ⟨hd, rfl⟩, rfl, ⟨b, rfl⟩, rfl, pm, rfl⟩

/-- C4: if any acquisition step, the INIT phase, or the PLAN phase fails,
the metrics dispatcher is never invoked — no metrics record, partial or
otherwise, is shipped for that run. -/
theorem c4_no_partial_metrics (s : RunSteps)
    (h : (∃ e, s.terraformVersion = .error e) ∨ (∃ e, s.installOutcome = .error e)
      ∨ (∃ e, s.repoHead = .error e) ∨ (∃ e, s.fetchOutcome = .error e)
      ∨ (∃ e, s.scratchSpace = .error e) ∨ (∃ e, terraformInitStep s = .error e)
      ∨ (∃ e, terraformPlanPhase s = .error e)) :
    mainShipped s = none ∧ ∀ cfg : SinkConfig, mainDispatched cfg s = [] := by
  have hraw : ∀ m : TerraformMetrics, mainRaw s ≠ .ok m := by
    intro m hm
    obtain ⟨⟨v, h1⟩, h2, ⟨hd, h3⟩, h4, ⟨b, h5⟩, h6, pm, h7⟩ := mainRaw_ok_parts hm
    rcases h with ⟨e, he⟩ | ⟨e, he⟩ | ⟨e, he⟩ | ⟨e, he⟩ | ⟨e, he⟩ | ⟨e, he⟩ | ⟨e, he⟩ <;>
      simp_all
  constructor
  · unfold mainShipped
    cases hm : mainRaw s with
    | ok m => exact absurd hm (hraw m)
    | error e => rfl
  · intro cfg
    unfold mainDispatched
    cases hm : mainRaw s with
    | ok m => exact absurd hm (hraw m)
    | error e => rfl

/-- Witness for C4: a run whose version resolution fails ships nothing. -/
theorem c4_no_partial_metrics_witness :
    mainShipped ⟨.error "boom".data, .ok (), .ok [], .ok (), .ok 0, true,
        .ok ⟨0, [], []⟩, .ok ⟨0, [], []⟩, .ok (), 0, 0⟩ = none
    ∧ mainDispatched ⟨[], []⟩ ⟨.error "boom".data, .ok (), .ok [], .ok (), .ok 0, true,
        .ok ⟨0, [], []⟩, .ok ⟨0, [], []⟩, .ok (), 0, 0⟩ = [] := by
  have h := c4_no_partial_metrics
    ⟨.error "boom".data, .ok (), .ok [], .ok (), .ok 0, true,
      .ok ⟨0, [], []⟩, .ok ⟨0, [], []⟩, .ok (), 0, 0⟩
    (Or.inl ⟨"boom".data, rfl⟩)
  exact ⟨h.1, h.2 ⟨[], []⟩⟩

/-- C1 counterexample: a PLAN execution exiting with code 3 (neither 0,
1 nor 2) does not fail the run — the plan step returns a metrics record
with terraformStatus 3 and the run ships it. -/
theorem c1_counterexample :
    terraformPlanStep 0 ⟨3, [], []⟩ = Except.ok ⟨3, 0, 0, 0, 0, 0, 0⟩
    ∧ mainShipped ⟨.ok [], .ok (), .ok [], .ok (), .ok 0, true, .ok ⟨0, [], []⟩,
        .ok ⟨3, [], []⟩, .ok (), 0, 0⟩ = some ⟨3, 0, 0, 0, 0, 0, 0, 0, 0⟩ := by
  constructor
  · rfl
  · rfl

/-- C1 amended: PLAN exit 0 yields status clean (terraformStatus 0) with
the parsed counts; exit 2 yields changes-pending (terraformStatus 2) with
the parsed counts; exit 1 — and only exit 1 — fails the run with the
execution error and no metrics are shipped; any other exit code is not a
failure: the plan step succeeds with terraformStatus equal to that code. -/
theorem c1_exit_code_mapping (rt : Nat) (res : ExecResult) :
    (res.code = 0 → terraformPlanStep rt res = .ok
        ⟨0, (parsePlanStdout res.stdout).resourceCount, rt,
         (parsePlanStdout res.stdout).pendingAdd,
         (parsePlanStdout res.stdout).pendingChange,
         (parsePlanStdout res.stdout).pendingDestroy,
         (parsePlanStdout res.stdout).pendingAdd
           + (parsePlanStdout res.stdout).pendingChange
           + (parsePlanStdout res.stdout).pendingDestroy⟩)
    ∧ (res.code = 2 → terraformPlanStep rt res = .ok
        ⟨2, (parsePlanStdout res.stdout).resourceCount, rt,
         (parsePlanStdout res.stdout).pendingAdd,
         (parsePlanStdout res.stdout).pendingChange,
         (parsePlanStdout res.stdout).pendingDestroy,
         (parsePlanStdout res.stdout).pendingAdd
           + (parsePlanStdout res.stdout).pendingChange
           + (parsePlanStdout res.stdout).pendingDestroy⟩)
    ∧ (res.code = 1 → terraformPlanStep rt res = .error (planFailMsg 1)
        ∧ ∀ s : RunSteps, s.planSpawn = .ok res → mainShipped s = none)
    ∧ (res.code ≠ 1 → ∃ m, terraformPlanStep rt res = .ok m
        ∧ m.terraformStatus = res.code) := by
  refine ⟨?_, ?_, ?_, ?_⟩
  · intro h0
    simp [terraformPlanStep, h0]
  · intro h2
    simp [terraformPlanStep, h2]
  · intro h1
    constructor
    · simp [terraformPlanStep, h1, planFailMsg]
    · intro s hplan
      unfold mainShipped
      cases hm : mainRaw s with
      | ok m =>
        obtain ⟨_, _, _, _, _, _, pm, h7⟩ := mainRaw_ok_parts hm
        unfold terraformPlanPhase at h7
        rw [hplan] at h7
        have h7' : terraformPlanStep s.refreshTime res = .ok pm := h7
        rw [show terraformPlanStep s.refreshTime res
            = .error (planFailMsg res.code) from by simp [terraformPlanStep, h1]] at h7'
        exact Except.noConfusion h7'
      | error e => rfl
  · intro hne
    refine ⟨⟨res.code, (parsePlanStdout res.stdout).resourceCount, rt,
      (parsePlanStdout res.stdout).pendingAdd,
      (parsePlanStdout res.stdout).pendingChange,
      (parsePlanStdout res.stdout).pendingDestroy,
      (parsePlanStdout res.stdout).pendingAdd
        + (parsePlanStdout res.stdout).pendingChange
        + (parsePlanStdout res.stdout).pendingDestroy⟩, ?_, rfl⟩
    simp [terraformPlanStep, hne]

/-- Witness for C1 at exit code 2 with a summary line. -/
theorem c1_exit_code_mapping_witness :
    terraformPlanStep 0 ⟨2, "Plan: 2 to add, 0 to change, 1 to destroy.".data, []⟩
      = .ok ⟨2,
        (parsePlanStdout "Plan: 2 to add, 0 to change, 1 to destroy.".data).resourceCount, 0,
        (parsePlanStdout "Plan: 2 to add, 0 to change, 1 to destroy.".data).pendingAdd,
        (parsePlanStdout "Plan: 2 to add, 0 to change, 1 to destroy.".data).pendingChange,
        (parsePlanStdout "Plan: 2 to add, 0 to change, 1 to destroy.".data).pendingDestroy,
        (parsePlanStdout "Plan: 2 to add, 0 to change, 1 to destroy.".data).pendingAdd
          + (parsePlanStdout "Plan: 2 to add, 0 to change, 1 to destroy.".data).pendingChange
          + (parsePlanStdout "Plan: 2 to add, 0 to change, 1 to destroy.".data).pendingDestroy⟩ :=
  (c1_exit_code_mapping 0
    ⟨2, "Plan: 2 to add, 0 to change, 1 to destroy.".data, []⟩).2.1 rfl

/-- C8: `main` always resolves — the trailing catch turns every internal
failure into a logged message and a normal completion — so the Lambda
handler's completion callback receives no fatal error for any run. -/
theorem c8_always_resolves (s : RunSteps) :
    mainResolved s = Except.ok () ∧ handlerCallbackArg s = none := by
  have h : mainResolved s = Except.ok () := by
    unfold mainResolved
    split <;> rfl
  refine ⟨h, ?_⟩
  unfold handlerCallbackArg
  rw [h]

lemma strcat_assoc_lit (a b ab : Str) (h : a ++ b = ab) (x : Str) :
    a ++ (b ++ x) = ab ++ x := by
  rw [← List.append_assoc, h]

/-- C6: provisioning the binary is idempotent — the returned path is the
deterministic "<scratch>/terraform_<version>_linux_amd64/terraform", a
second call for the same version returns the identical path and performs
no further download, and a call whose path already exists leaves the
state untouched. -/
theorem c6_install_idempotent (scratch version : Str) (d : Disk) :
    (installTerraform scratch version d).1
        = scratch ++ "/terraform_".data ++ version ++ "_linux_amd64/terraform".data
    ∧ (installTerraform scratch version ((installTerraform scratch version d).2)).1
        = (installTerraform scratch version d).1
    ∧ ((installTerraform scratch version ((installTerraform scratch version d).2)).2).downloads
        = ((installTerraform scratch version d).2).downloads
    ∧ ((installTerraform scratch version d).1 ∈ d.paths →
        (installTerraform scratch version d).2 = d) := by
  have hpath : (scratch ++ "/".data ++ ("terraform_".data ++ version ++ "_linux_amd64".data))
      ++ "/terraform".data
      = scratch ++ "/terraform_".data ++ version ++ "_linux_amd64/terraform".data := by
    simp only [List.append_assoc]
    rfl
  have hfst : ∀ dd : Disk, (installTerraform scratch version dd).1
      = scratch ++ "/".data ++ ("terraform_".data ++ version ++ "_linux_amd64".data)
        ++ "/terraform".data := by
    intro dd
    simp only [installTerraform]
    split <;> rfl
  have hsnd : ∀ dd : Disk, (installTerraform scratch version dd).2
      = if scratch ++ "/".data ++ ("terraform_".data ++ version ++ "_linux_amd64".data)
            ++ "/terraform".data ∈ dd.paths
        then dd
        else ⟨(scratch ++ "/".data ++ ("terraform_".data ++ version ++ "_linux_amd64".data)
            ++ "/terraform".data) :: dd.paths, dd.downloads + 1⟩ := by
    intro dd
    simp only [installTerraform]
    split <;> rfl
  refine ⟨(hfst d).trans hpath, (hfst _).trans (hfst d).symm, ?_, ?_⟩
  · rw [hsnd, hsnd]
    by_cases hmem : scratch ++ "/".data ++ ("terraform_".data ++ version
        ++ "_linux_amd64".data) ++ "/terraform".data ∈ d.paths
    · rw [if_pos hmem, if_pos hmem]
    · rw [if_neg hmem, if_pos (List.mem_cons_self _ _)]
  · intro hmem'
    rw [hfst d] at hmem'
    rw [hsnd, if_pos hmem']

/-- Witness for C6 with the binary already cached. -/
theorem c6_install_idempotent_witness :
    (installTerraform "/tmp".data "0.11.8".data
        ⟨["/tmp/terraform_0.11.8_linux_amd64/terraform".data], 1⟩).2
      = ⟨["/tmp/terraform_0.11.8_linux_amd64/terraform".data], 1⟩ :=
  (c6_install_idempotent "/tmp".data "0.11.8".data
    ⟨["/tmp/terraform_0.11.8_linux_amd64/terraform".data], 1⟩).2.2.2 (by decide)

end TerraformMonitor
